import Mathlib

/-!
Shallow embedding of the FormValidationPro server core (src/routes.ts:
validation rules, sanitizers, the payment pipeline, and the two storage
backends) together with theorems checking the specification's claims.

Strings are modelled by Lean `String`/`List Char`; JavaScript numbers by
exact rationals (IEEE rounding is abstracted away: the only numeric tests
in the source are NaN-ness, positivity, and integer comparisons, where the
abstraction is faithful on the inputs the sanitizers can produce);
timestamps (`Date.now()` / `new Date()`) by `Nat` milliseconds passed
explicitly; `Math.random()` draws by the digit list of their base-36
fractional expansion.
-/

namespace FormValidationPro

/-! ## JavaScript string primitives -/

/-- Characters matched by the JS regex class `\s` and removed by
`String.prototype.trim` (ASCII whitespace plus the Unicode space set). -/
def isJsSpace (c : Char) : Bool :=
  c = ' ' || c = '\t' || c = '\n' || c = '\r' || c.val = 0x0b || c.val = 0x0c ||
  c.val = 0xa0 || c.val = 0x1680 || (0x2000 ≤ c.val && c.val ≤ 0x200a) ||
  c.val = 0x2028 || c.val = 0x2029 || c.val = 0x202f || c.val = 0x205f ||
  c.val = 0x3000 || c.val = 0xfeff

/-- JS `s.trim()`: strip leading and trailing whitespace. -/
def jsTrim (s : String) : String :=
  (((s.toList.dropWhile isJsSpace).reverse.dropWhile isJsSpace).reverse).asString

/-- JS `s.replace(/\s/g, '')`: remove every whitespace character. -/
def stripSpaces (s : String) : String :=
  (s.toList.filter (fun c => !isJsSpace c)).asString

/-- JS `s.toLowerCase()` on the ASCII range (the only range the claims and
the repository's data exercise). -/
def jsToLower (s : String) : String :=
  (s.toList.map Char.toLower).asString

/-- JS `s.charAt(0).toUpperCase() + s.slice(1)`. -/
def jsCapitalize (s : String) : String :=
  match s.toList with
  | [] => ""
  | c :: rest => (Char.toUpper c :: rest).asString

/-- JS `s.substring(0, n)` (also `s.substr(0, n)` from position 0). -/
def jsTake (s : String) (n : Nat) : String :=
  (s.toList.take n).asString

/-- JS `s.substr(start, len)`. -/
def jsSubstr (s : String) (start len : Nat) : String :=
  ((s.toList.drop start).take len).asString

/-! ## JavaScript numeric parsing -/

/-- Longest run of leading decimal digits, and the rest. -/
def takeDigits : List Char → List Char × List Char
  | [] => ([], [])
  | c :: rest =>
    if c.isDigit then
      let p := takeDigits rest
      (c :: p.1, p.2)
    else ([], c :: rest)

/-- Value of a decimal digit string. -/
def digitsToNat (ds : List Char) : Nat :=
  ds.foldl (fun a c => 10 * a + (c.toNat - 48)) 0

/-- Result of JS numeric conversion: NaN, a signed infinity, or a finite
value held exactly as mantissa × 10^exp10. -/
inductive JsNumber where
  | nan : JsNumber
  | inf (neg : Bool) : JsNumber
  | num (mantissa : Int) (exp10 : Int) : JsNumber
deriving DecidableEq

/-- Exponent part of a StrDecimalLiteral: `e`/`E`, optional sign, digits.
An incomplete exponent (no digits after the `e`) is unconsumed trailing
input and contributes a factor of one. -/
def parseExpPart : List Char → Int
  | c :: rest =>
    if c = 'e' || c = 'E' then
      match rest with
      | '+' :: r2 => let p := takeDigits r2; if p.1 = [] then 0 else (digitsToNat p.1 : Int)
      | '-' :: r2 => let p := takeDigits r2; if p.1 = [] then 0 else -(digitsToNat p.1 : Int)
      | r2 => let p := takeDigits r2; if p.1 = [] then 0 else (digitsToNat p.1 : Int)
    else 0
  | [] => 0

/-- Unsigned decimal literal `digits [. digits] [exp]` or `. digits [exp]`;
`none` when no digit is present (parseFloat then yields NaN), otherwise
the pair (unsigned mantissa, power-of-ten exponent) whose exact value is
mantissa × 10^exp. Trailing garbage is ignored, as in JS. -/
def parseDecimal (l : List Char) : Option (Nat × Int) :=
  let ip := takeDigits l
  match ip.2 with
  | '.' :: r2 =>
    let fp := takeDigits r2
    if ip.1 = [] && fp.1 = [] then none
    else some (digitsToNat (ip.1 ++ fp.1), parseExpPart fp.2 - (fp.1.length : Int))
  | rest =>
    if ip.1 = [] then none
    else some (digitsToNat ip.1, parseExpPart rest)

/-- Body of `parseFloat` after the optional sign: the `Infinity` keyword or
a decimal literal. -/
def parseFloatBody (l : List Char) (neg : Bool) : JsNumber :=
  match l with
  | 'I' :: 'n' :: 'f' :: 'i' :: 'n' :: 'i' :: 't' :: 'y' :: _ => .inf neg
  | _ =>
    match parseDecimal l with
    | none => .nan
    | some me => .num (if neg then -(me.1 : Int) else (me.1 : Int)) me.2

/-- JS `parseFloat`: skip leading whitespace, optional sign, then the
longest valid decimal-literal prefix; NaN when none exists. -/
def jsParseFloat (s : String) : JsNumber :=
  match s.toList.dropWhile isJsSpace with
  | '+' :: rest => parseFloatBody rest false
  | '-' :: rest => parseFloatBody rest true
  | rest => parseFloatBody rest false

/-- Hexadecimal digit test for `parseInt` with a `0x` input. -/
def isHexDigitChar (c : Char) : Bool :=
  c.isDigit || ('a' ≤ c && c ≤ 'f') || ('A' ≤ c && c ≤ 'F')

/-- Longest run of leading hex digits, and the rest. -/
def takeHexDigits : List Char → List Char × List Char
  | [] => ([], [])
  | c :: rest =>
    if isHexDigitChar c then
      let p := takeHexDigits rest
      (c :: p.1, p.2)
    else ([], c :: rest)

/-- Value of a hex digit. -/
def hexDigitVal (c : Char) : Nat :=
  if c.isDigit then c.toNat - 48
  else if 'a' ≤ c && c ≤ 'f' then c.toNat - 87
  else c.toNat - 55

/-- Value of a hex digit string. -/
def hexToNat (ds : List Char) : Nat :=
  ds.foldl (fun a c => 16 * a + hexDigitVal c) 0

/-- JS `parseInt` with no radix argument: skip whitespace, optional sign,
`0x`/`0X` switches to hexadecimal, otherwise decimal digits; `none` models
NaN (no digit parsed). Trailing garbage is ignored, as in JS. -/
def jsParseInt (s : String) : Option Int :=
  let l := s.toList.dropWhile isJsSpace
  let signed : Bool × List Char :=
    match l with
    | '+' :: r => (false, r)
    | '-' :: r => (true, r)
    | r => (false, r)
  let body := signed.2
  let mag : Option Nat :=
    match body with
    | '0' :: 'x' :: r2 => let p := takeHexDigits r2; if p.1 = [] then none else some (hexToNat p.1)
    | '0' :: 'X' :: r2 => let p := takeHexDigits r2; if p.1 = [] then none else some (hexToNat p.1)
    | _ => let p := takeDigits body; if p.1 = [] then none else some (digitsToNat p.1)
  mag.map (fun n => if signed.1 then -(n : Int) else (n : Int))

/-! ## Validation rules (src/routes.ts lines 24-66) -/

/-- `validateCardNumber`: after removing spaces, `^\d{16}$`. -/
def validateCardNumber (value : String) : Bool :=
  let cleaned := stripSpaces value
  cleaned.length = 16 && cleaned.toList.all Char.isDigit

/-- `validateCVC`: `^\d{3,4}$`. -/
def validateCVC (value : String) : Bool :=
  value.toList.all Char.isDigit && (value.length = 3 || value.length = 4)

/-- `validateExpiryDate`: `^\d{2}\/\d{2}$`, month in 1..12, and (year,
month) not strictly before the current (year mod 100, month). The current
date is an explicit argument (`new Date()` in the source). -/
def validateExpiryDate (curYear curMonth : Nat) (value : String) : Bool :=
  match value.toList with
  | [m1, m2, sl, y1, y2] =>
    if m1.isDigit && m2.isDigit && sl = '/' && y1.isDigit && y2.isDigit then
      let expMonth := 10 * (m1.toNat - 48) + (m2.toNat - 48)
      let expYear := 10 * (y1.toNat - 48) + (y2.toNat - 48)
      if expMonth < 1 || expMonth > 12 then false
      else if expYear < curYear || (expYear = curYear && expMonth < curMonth) then false
      else true
    else false
  | _ => false

/-- `validateAmount`: `parseFloat` yields a non-NaN value strictly
greater than zero (a value mantissa × 10^exp is positive exactly when its
mantissa is). -/
def validateAmount (value : String) : Bool :=
  match jsParseFloat value with
  | .nan => false
  | .inf neg => !neg
  | .num m _ => decide (0 < m)

/-- `validateEmail`: `^[^\s@]+@[^\s@]+\.[^\s@]+$` — no whitespace, exactly
one `@`, a nonempty local part, and after the `@` a dot that is neither
the first nor the last character. -/
def validateEmail (value : String) : Bool :=
  let l := value.toList
  let before := l.takeWhile (fun c => c ≠ '@')
  let rest := l.dropWhile (fun c => c ≠ '@')
  let after := rest.drop 1
  l.all (fun c => !isJsSpace c) &&
  !before.isEmpty && !rest.isEmpty &&
  after.all (fun c => c ≠ '@') &&
  ((after.drop 1).dropLast.contains '.')

/-- `validatePostalCode`: `^\d{5}(-\d{4})?$`. -/
def validatePostalCode (value : String) : Bool :=
  let l := value.toList
  (l.length = 5 && l.all Char.isDigit) ||
  (l.length = 10 && (l.take 5).all Char.isDigit && l.get? 5 = some '-' &&
    (l.drop 6).all Char.isDigit)

/-- `validateRequired`: nonempty after trimming. -/
def validateRequired (value : String) : Bool :=
  jsTrim value ≠ ""

/-! ## Form data and form validation (src/routes.ts lines 5-94) -/

/-- The eleven sanitized string fields of a submission. -/
structure PaymentFormData where
  cardNumber : String
  cvc : String
  expiryDate : String
  amount : String
  firstName : String
  lastName : String
  email : String
  city : String
  state : String
  postalCode : String
  message : String
deriving DecidableEq, Repr

/-- One entry of the error list returned by `validatePaymentForm`. -/
structure ValidationError where
  field : String
  message : String
deriving DecidableEq, Repr

/-- One entry of the `validations` array inside `validatePaymentForm`. -/
structure FieldCheck where
  field : String
  value : String
  validator : String → Bool
  message : String
  required : Bool

/-- The `validations` array of `validatePaymentForm`, in source order. -/
def validations (curYear curMonth : Nat) (fd : PaymentFormData) : List FieldCheck :=
  [ ⟨"cardNumber", fd.cardNumber, validateCardNumber, "Card number must be 16 digits", true⟩,
    ⟨"cvc", fd.cvc, validateCVC, "CVC must be 3-4 digits", true⟩,
    ⟨"expiryDate", fd.expiryDate, validateExpiryDate curYear curMonth,
      "Expiry date must be valid and in the future (MM/YY)", true⟩,
    ⟨"amount", fd.amount, validateAmount, "Amount must be a valid positive number", true⟩,
    ⟨"firstName", fd.firstName, validateRequired, "First name is required", true⟩,
    ⟨"lastName", fd.lastName, validateRequired, "Last name is required", true⟩,
    ⟨"email", fd.email, validateEmail, "Please enter a valid email address", true⟩,
    ⟨"city", fd.city, validateRequired, "City is required", true⟩,
    ⟨"state", fd.state, validateRequired, "State is required", true⟩,
    ⟨"postalCode", fd.postalCode, validatePostalCode,
      "Postal code must be in format 12345 or 12345-6789", true⟩ ]

/-- The body of the `forEach` callback of `validatePaymentForm`: push the
generic required error for an empty field, else the format error for a
nonempty field failing its validator (JS truthiness of `value` is
nonemptiness). -/
def pushError (errors : List ValidationError) (v : FieldCheck) : List ValidationError :=
  if v.required && !validateRequired v.value then
    errors ++ [⟨v.field, jsCapitalize v.field ++ " is required"⟩]
  else if !(v.value == "") && !v.validator v.value then
    errors ++ [⟨v.field, v.message⟩]
  else errors

/-- `validatePaymentForm`: run the callback over the `validations` array,
accumulating the error list. -/
def validatePaymentForm (curYear curMonth : Nat) (fd : PaymentFormData) :
    List ValidationError :=
  (validations curYear curMonth fd).foldl pushError []

/-- The contribution of a single `validations` entry to the error list. -/
def runCheck (v : FieldCheck) : Option ValidationError :=
  if v.required && !validateRequired v.value then
    some ⟨v.field, jsCapitalize v.field ++ " is required"⟩
  else if !(v.value == "") && !v.validator v.value then
    some ⟨v.field, v.message⟩
  else none

/-! ## Sanitizers (src/routes.ts lines 96-110) -/

/-- The characters removed by `sanitizeInput`: `<`, `>`, `"`, `'`
(values 60, 62, 34, 39). -/
def isInjectionChar (c : Char) : Bool :=
  c.val = 60 || c.val = 62 || c.val = 34 || c.val = 39

/-- `sanitizeInput`: trim, strip injection characters, truncate to 255. -/
def sanitizeInput (input : String) : String :=
  jsTake (((jsTrim input).toList.filter (fun c => !isInjectionChar c)).asString) 255

/-- `sanitizeEmail`: lowercase, trim, truncate to 254. -/
def sanitizeEmail (email : String) : String :=
  jsTake (jsTrim (jsToLower email)) 254

/-- `sanitizeNumeric`: keep only digits, `.` and `-`, truncate to 20. -/
def sanitizeNumeric (input : String) : String :=
  jsTake ((input.toList.filter (fun c => c.isDigit || c = '.' || c = '-')).asString) 20

/-- The sanitization step of POST /api/payment (src/routes.ts 126-138). -/
def sanitizePayment (fd : PaymentFormData) : PaymentFormData :=
  { cardNumber := sanitizeNumeric fd.cardNumber
    cvc := sanitizeNumeric fd.cvc
    expiryDate := sanitizeInput fd.expiryDate
    amount := sanitizeNumeric fd.amount
    firstName := sanitizeInput fd.firstName
    lastName := sanitizeInput fd.lastName
    email := sanitizeEmail fd.email
    city := sanitizeInput fd.city
    state := sanitizeInput fd.state
    postalCode := sanitizeNumeric fd.postalCode
    message := sanitizeInput fd.message }

/-! ## Data model (from @shared/schema as used by src/routes.ts)

The schema module itself is not under src/; the record shapes below are
modelled from the spec's data model (§3, §6) and from every use site in
src/routes.ts. -/

/-- User entity: id, username, password. -/
structure User where
  id : Int
  username : String
  password : String
deriving DecidableEq, Repr

/-- Modelled from the spec: `InsertUser` from @shared/schema — a user
without the server-assigned id. -/
structure InsertUser where
  username : String
  password : String
deriving DecidableEq, Repr

/-- Modelled from the spec: `Partial<InsertUser>` as accepted by
`updateUser` — each insertable field optionally present. -/
structure UpdateUser where
  username : Option String := none
  password : Option String := none
deriving DecidableEq, Repr

/-- Payment record as persisted (spec §3): masked card number, optional
message, status string, timestamps in milliseconds. -/
structure Payment where
  id : Int
  cardNumber : String
  cvc : String
  expiryDate : String
  amount : String
  firstName : String
  lastName : String
  email : String
  city : String
  state : String
  postalCode : String
  message : Option String
  status : String
  transactionId : String
  createdAt : Nat
  updatedAt : Nat
deriving DecidableEq, Repr

/-- Modelled from the spec: `InsertPayment` from @shared/schema — the
fields the pipeline passes to `createPayment` (sanitized form data plus
transactionId and status; message and status may be empty, the storage
layer applies `|| null` / `|| 'pending'` defaults). -/
structure InsertPayment where
  cardNumber : String
  cvc : String
  expiryDate : String
  amount : String
  firstName : String
  lastName : String
  email : String
  city : String
  state : String
  postalCode : String
  message : String
  transactionId : String
  status : String
deriving DecidableEq, Repr

/-- Modelled from the spec: `UpdatePayment` from @shared/schema — a
partial payment update. Per spec §3 the mutable attribute used by every
caller is `status`; id, transactionId and the timestamps are not part of
it (`createdAt` is set once, `updatedAt` is managed by the storage
layer). -/
structure UpdatePayment where
  status : Option String := none
deriving DecidableEq, Repr

/-! ## JS Map model

`Map` keeps insertion order; `set` on an existing key overwrites in
place, otherwise appends. -/

/-- `Map.get`. -/
def mapGet {α : Type} : List (Int × α) → Int → Option α
  | [], _ => none
  | (k, v) :: rest, key => if k = key then some v else mapGet rest key

/-- `Map.set`. -/
def mapSet {α : Type} : List (Int × α) → Int → α → List (Int × α)
  | [], key, val => [(key, val)]
  | (k, v) :: rest, key, val =>
    if k = key then (key, val) :: rest else (k, v) :: mapSet rest key val

/-- `Map.delete`, returning whether the key was present. -/
def mapDelete {α : Type} : List (Int × α) → Int → Bool × List (Int × α)
  | [], _ => (false, [])
  | (k, v) :: rest, key =>
    if k = key then (true, rest)
    else
      let p := mapDelete rest key
      (p.1, (k, v) :: p.2)

/-! ## MemStorage (src/routes.ts lines 534-727) -/

/-- State of the in-memory backend: two maps and two id counters. -/
structure MemStorage where
  users : List (Int × User)
  payments : List (Int × Payment)
  currentUserId : Int
  currentPaymentId : Int
deriving DecidableEq, Repr

/-- The `MemStorage` constructor: empty maps, counters at 1. -/
def MemStorage.init : MemStorage :=
  { users := [], payments := [], currentUserId := 1, currentPaymentId := 1 }

/-- `maskCardNumber` (MemStorage): strip spaces; all-stars when fewer than
4 characters remain, else stars followed by the last four characters. -/
def MemStorage.maskCardNumber (cardNumber : String) : String :=
  let cleaned := stripSpaces cardNumber
  if cleaned.length < 4 then (List.replicate cleaned.length '*').asString
  else
    let lastFour := (cleaned.toList.drop (cleaned.length - 4)).asString
    (List.replicate (cleaned.length - 4) '*').asString ++ lastFour

/-- `createUser`: assign the next user id and store. -/
def MemStorage.createUser (s : MemStorage) (insertUser : InsertUser) :
    User × MemStorage :=
  let id := s.currentUserId
  let user : User := { id := id, username := insertUser.username,
                       password := insertUser.password }
  (user, { s with users := mapSet s.users id user, currentUserId := id + 1 })

/-- `updateUser`: not found on a missing id, else merge the provided
fields over the existing user (`{...existingUser, ...userData}`). -/
def MemStorage.updateUser (s : MemStorage) (id : Int) (userData : UpdateUser) :
    Option User × MemStorage :=
  match mapGet s.users id with
  | none => (none, s)
  | some existingUser =>
    let updatedUser : User :=
      { id := existingUser.id
        username := userData.username.getD existingUser.username
        password := userData.password.getD existingUser.password }
    (some updatedUser, { s with users := mapSet s.users id updatedUser })

/-- `createPayment`: assign the next payment id, mask the card number,
apply the `|| null` / `|| 'pending'` defaults, stamp both timestamps with
`now`, and store. -/
def MemStorage.createPayment (s : MemStorage) (now : Nat) (insertPayment : InsertPayment) :
    Payment × MemStorage :=
  let id := s.currentPaymentId
  let payment : Payment :=
    { id := id
      cardNumber := MemStorage.maskCardNumber insertPayment.cardNumber
      cvc := insertPayment.cvc
      expiryDate := insertPayment.expiryDate
      amount := insertPayment.amount
      firstName := insertPayment.firstName
      lastName := insertPayment.lastName
      email := insertPayment.email
      city := insertPayment.city
      state := insertPayment.state
      postalCode := insertPayment.postalCode
      message := if insertPayment.message = "" then none else some insertPayment.message
      status := if insertPayment.status = "" then "pending" else insertPayment.status
      transactionId := insertPayment.transactionId
      createdAt := now
      updatedAt := now }
  (payment, { s with payments := mapSet s.payments id payment,
                     currentPaymentId := id + 1 })

/-- `getPayment`. -/
def MemStorage.getPayment (s : MemStorage) (id : Int) : Option Payment :=
  mapGet s.payments id

/-- `updatePayment`: not found on a missing id, else merge the update over
the existing record (`{...existingPayment, ...paymentData}`) and refresh
`updatedAt`. -/
def MemStorage.updatePayment (s : MemStorage) (now : Nat) (id : Int)
    (paymentData : UpdatePayment) : Option Payment × MemStorage :=
  match mapGet s.payments id with
  | none => (none, s)
  | some existingPayment =>
    let updatedPayment : Payment :=
      { existingPayment with
          status := paymentData.status.getD existingPayment.status
          updatedAt := now }
    (some updatedPayment, { s with payments := mapSet s.payments id updatedPayment })

/-- `deletePayment`. -/
def MemStorage.deletePayment (s : MemStorage) (id : Int) : Bool × MemStorage :=
  let p := mapDelete s.payments id
  (p.1, { s with payments := p.2 })

/-- `getPaymentsByEmail` (MemStorage): filter the stored payments by
case-insensitive email equality. -/
def MemStorage.getPaymentsByEmail (s : MemStorage) (email : String) : List Payment :=
  (s.payments.map Prod.snd).filter
    (fun payment => jsToLower payment.email == jsToLower email)

/-- `getPaymentsByStatus` (MemStorage): filter by exact status. -/
def MemStorage.getPaymentsByStatus (s : MemStorage) (status : String) : List Payment :=
  (s.payments.map Prod.snd).filter (fun payment => payment.status == status)

/-! ## DatabaseStorage (src/routes.ts lines 733-845)

The relational engine itself is external; a table is modelled as the list
of its rows, and the drizzle `eq` operator as SQL equality, which on text
columns is exact (case-sensitive) comparison. -/

/-- `maskCardNumber` (DatabaseStorage): identical to the MemStorage
version. -/
def DatabaseStorage.maskCardNumber (cardNumber : String) : String :=
  let cleaned := stripSpaces cardNumber
  if cleaned.length < 4 then (List.replicate cleaned.length '*').asString
  else
    let lastFour := (cleaned.toList.drop (cleaned.length - 4)).asString
    (List.replicate (cleaned.length - 4) '*').asString ++ lastFour

/-- The row values `DatabaseStorage.createPayment` hands to the insert
(id and timestamps are engine-assigned). -/
structure DbInsertValues where
  cardNumber : String
  cvc : String
  expiryDate : String
  amount : String
  firstName : String
  lastName : String
  email : String
  city : String
  state : String
  postalCode : String
  message : Option String
  status : String
  transactionId : String
deriving DecidableEq, Repr

/-- The `paymentData` object built by `DatabaseStorage.createPayment`
before the insert: spread of the insert payload with the card number
masked and the `|| null` / `|| 'pending'` defaults applied. -/
def DatabaseStorage.createPaymentData (insertPayment : InsertPayment) : DbInsertValues :=
  { cardNumber := DatabaseStorage.maskCardNumber insertPayment.cardNumber
    cvc := insertPayment.cvc
    expiryDate := insertPayment.expiryDate
    amount := insertPayment.amount
    firstName := insertPayment.firstName
    lastName := insertPayment.lastName
    email := insertPayment.email
    city := insertPayment.city
    state := insertPayment.state
    postalCode := insertPayment.postalCode
    message := if insertPayment.message = "" then none else some insertPayment.message
    status := if insertPayment.status = "" then "pending" else insertPayment.status
    transactionId := insertPayment.transactionId }

/-- `getPaymentsByEmail` (DatabaseStorage): `where eq(payments.email,
email)` — exact equality on the email column. -/
def DatabaseStorage.getPaymentsByEmail (table : List Payment) (email : String) :
    List Payment :=
  table.filter (fun payment => payment.email == email)

/-! ## Transaction id generation (src/routes.ts line 153)

`Math.random().toString(36)` on a draw in [0,1) renders `"0"` for zero and
otherwise `"0."` followed by the base-36 digits of the fractional
expansion (radix conversion never uses exponent form); a draw is modelled
by that digit list. -/

/-- Rendering of a draw in [0,1) in base 36, given its fractional digit
list. -/
def toString36 (ds : List Char) : String :=
  if ds = [] then "0" else "0." ++ ds.asString

/-- The suffix `Math.random().toString(36).substr(2, 9)`. -/
def randSuffix (ds : List Char) : String :=
  jsSubstr (toString36 ds) 2 9

/-- The template `TXN-(Date.now())-(random suffix)`. -/
def mkTransactionId (ts : Nat) (ds : List Char) : String :=
  "TXN-" ++ Nat.repr ts ++ "-" ++ randSuffix ds

/-- Base-36 digit test (`0`-`9`, `a`-`z`). -/
def isBase36 (c : Char) : Bool :=
  c.isDigit || ('a' ≤ c && c ≤ 'z')

/-! ## POST /api/payment pipeline (src/routes.ts lines 120-208)

The nondeterministic inputs — current date for expiry validation, the
`Date.now()` timestamp, the random draw, the 10% gateway outcome, and the
two `new Date()` instants — are explicit arguments. -/

/-- Outcome of the pipeline as seen by the caller. -/
inductive PipelineResult where
  | validationFailed (errors : List ValidationError)
  | declined
  | approved (transactionId : String) (paymentId : Int)
      (amount email name status : String)
deriving DecidableEq, Repr

/-- HTTP status code of a pipeline outcome. -/
def PipelineResult.httpCode : PipelineResult → Nat
  | .validationFailed _ => 400
  | .declined => 422
  | .approved _ _ _ _ _ _ => 200

/-- The POST /api/payment handler over the in-memory backend: sanitize,
validate (abort with 400 before any record is created), create the record
in status `pending`, then settle it as `failed` (422) or `completed`
(200) according to the gateway outcome. -/
def processPayment (curYear curMonth : Nat) (ts : Nat) (ds : List Char)
    (shouldFail : Bool) (nowCreate nowUpdate : Nat) (fd : PaymentFormData)
    (s : MemStorage) : PipelineResult × MemStorage :=
  let sanitizedData := sanitizePayment fd
  let validationErrors := validatePaymentForm curYear curMonth sanitizedData
  if validationErrors.length > 0 then
    (.validationFailed validationErrors, s)
  else
    let transactionId := mkTransactionId ts ds
    let insertPayment : InsertPayment :=
      { cardNumber := sanitizedData.cardNumber
        cvc := sanitizedData.cvc
        expiryDate := sanitizedData.expiryDate
        amount := sanitizedData.amount
        firstName := sanitizedData.firstName
        lastName := sanitizedData.lastName
        email := sanitizedData.email
        city := sanitizedData.city
        state := sanitizedData.state
        postalCode := sanitizedData.postalCode
        message := sanitizedData.message
        transactionId := transactionId
        status := "pending" }
    let created := s.createPayment nowCreate insertPayment
    let paymentRecord := created.1
    if shouldFail then
      let upd := created.2.updatePayment nowUpdate paymentRecord.id { status := some "failed" }
      (.declined, upd.2)
    else
      let upd := created.2.updatePayment nowUpdate paymentRecord.id { status := some "completed" }
      (.approved paymentRecord.transactionId paymentRecord.id
        sanitizedData.amount sanitizedData.email
        (sanitizedData.firstName ++ " " ++ sanitizedData.lastName)
        (((upd.1).map Payment.status).getD "completed"), upd.2)

/-! ## PATCH /api/payment/:id/status (src/routes.ts lines 307-365) -/

/-- The allowed status values of the PATCH handler. -/
def validStatuses : List String := ["pending", "completed", "failed", "refunded"]

/-- Outcome of the PATCH handler. -/
inductive PatchResult where
  | badRequest
  | notFound
  | ok (id : Int) (transactionId status : String) (updatedAt : Nat)
deriving DecidableEq, Repr

/-- HTTP status code of a PATCH outcome. -/
def PatchResult.httpCode : PatchResult → Nat
  | .badRequest => 400
  | .notFound => 404
  | .ok _ _ _ _ => 200

/-- The PATCH /api/payment/:id/status handler: 400 on a NaN id, 400 on a
sanitized status outside the enum, 404 when the update finds no record,
200 with the updated fields otherwise. -/
def patchPaymentStatus (s : MemStorage) (now : Nat) (idParam statusBody : String) :
    PatchResult × MemStorage :=
  let paymentId := jsParseInt idParam
  let sanitizedStatus := sanitizeInput statusBody
  match paymentId with
  | none => (.badRequest, s)
  | some pid =>
    if !(validStatuses.contains sanitizedStatus) then (.badRequest, s)
    else
      let upd := s.updatePayment now pid { status := some sanitizedStatus }
      match upd.1 with
      | none => (.notFound, upd.2)
      | some updatedPayment =>
        (.ok updatedPayment.id updatedPayment.transactionId updatedPayment.status
          updatedPayment.updatedAt, upd.2)

/-! ## Operation traces over the in-memory backend -/

/-- One storage operation on payments, with its wall-clock instant where
the source reads the clock. -/
inductive MemOp where
  | create (now : Nat) (p : InsertPayment)
  | update (now : Nat) (id : Int) (u : UpdatePayment)
  | delete (id : Int)

/-- Run a trace of operations; also return the ids handed out by the
create operations, in order. -/
def runOps (s : MemStorage) : List MemOp → MemStorage × List Int
  | [] => (s, [])
  | MemOp.create now p :: rest =>
    let c := s.createPayment now p
    let r := runOps c.2 rest
    (r.1, c.1.id :: r.2)
  | MemOp.update now id u :: rest =>
    let c := s.updatePayment now id u
    runOps c.2 rest
  | MemOp.delete id :: rest =>
    let c := s.deletePayment id
    runOps c.2 rest

/-- The clock never runs backwards along a trace: each timed operation
happens no earlier than the previous instant. -/
def opsMonotone : Nat → List MemOp → Bool
  | _, [] => true
  | t, MemOp.create now _ :: rest => decide (t ≤ now) && opsMonotone now rest
  | t, MemOp.update now _ _ :: rest => decide (t ≤ now) && opsMonotone now rest
  | t, MemOp.delete _ :: rest => opsMonotone t rest

/-- The instant reached after a trace. -/
def endTime : Nat → List MemOp → Nat
  | t, [] => t
  | _, MemOp.create now _ :: rest => endTime now rest
  | _, MemOp.update now _ _ :: rest => endTime now rest
  | t, MemOp.delete _ :: rest => endTime t rest

/-- Timestamp sanity of a state at instant `t`: every stored record has
`createdAt ≤ updatedAt ≤ t`. -/
def stampsOK (s : MemStorage) (t : Nat) : Prop :=
  ∀ kv ∈ s.payments, kv.2.createdAt ≤ kv.2.updatedAt ∧ kv.2.updatedAt ≤ t

/-- Counter sanity: every stored payment key is below the id counter. -/
def idsBelow (s : MemStorage) : Prop :=
  ∀ kv ∈ s.payments, kv.1 < s.currentPaymentId

/-! ## Concrete example inputs used by witnesses and counterexamples -/

/-- A valid insert payload whose card number carries embedded spaces. -/
def ipC1 : InsertPayment :=
  ⟨"4111 1111 1111 1111", "123", "12/99", "50.00", "John", "Doe",
   "john@example.com", "Springfield", "IL", "12345", "", "TXN-0-abc", "pending"⟩

/-- A submission whose email is empty. -/
def fdC2 : PaymentFormData :=
  ⟨"4111111111111111", "123", "12/99", "50.00", "John", "Doe", "",
   "Springfield", "IL", "12345", ""⟩

/-- A fully valid submission (the email needs lowercasing and trimming,
the card number has spaces that the numeric sanitizer strips). -/
def fdC3 : PaymentFormData :=
  ⟨"4111 1111 1111 1111", "123", "12/99", "50.00", "John", "Doe",
   " John@Example.com", "Springfield", "IL", "12345", "hello"⟩

/-- An 11-digit base-36 fractional expansion for the C3 pipeline run. -/
def dsC3 : List Char := "4fzyo82mvyr".toList

/-- A stored payment whose email contains an uppercase letter. -/
def paymentC4 : Payment :=
  { id := 1, cardNumber := "************1111", cvc := "123", expiryDate := "12/99",
    amount := "50.00", firstName := "John", lastName := "Doe", email := "A@b.c",
    city := "Springfield", state := "IL", postalCode := "12345", message := none,
    status := "completed", transactionId := "TXN-1-x", createdAt := 0, updatedAt := 0 }

/-- An in-memory store holding `paymentC4`. -/
def memC4 : MemStorage := { MemStorage.init with payments := [(1, paymentC4)] }

/-- An 11-digit base-36 fractional expansion for the C5 witness. -/
def dsC5 : List Char := "p0qa3nf8zw1".toList

/-- Insert payload for the C6 trace. -/
def ipC6 : InsertPayment :=
  ⟨"4111111111111111", "123", "12/99", "50.00", "Ana", "Lee",
   "ana@example.com", "Austin", "TX", "73301", "", "TXN-5-x", "pending"⟩

/-- Store after creating `ipC6` at instant 5. -/
def sC6 : MemStorage := (MemStorage.init.createPayment 5 ipC6).2

/-- The record created from `ipC6` at instant 5. -/
def pC6 : Payment := (MemStorage.init.createPayment 5 ipC6).1

/-- The record after the status update at instant 7. -/
def qC6 : Payment := { pC6 with status := "completed", updatedAt := 7 }

/-- Trace: create at instant 5, then complete at instant 7. -/
def opsC6 : List MemOp := [.create 5 ipC6, .update 7 1 ⟨some "completed"⟩]

/-- Insert payload for the C8 store. -/
def ipC8 : InsertPayment :=
  ⟨"4111111111111111", "123", "12/99", "50.00", "Bob", "Ray",
   "bob@example.com", "Reno", "NV", "89501", "", "TXN-5-y", "pending"⟩

/-- A store in which payment id 1 exists. -/
def sC8 : MemStorage := (MemStorage.init.createPayment 5 ipC8).2

/-! ## String and map helper lemmas -/

theorem toList_asString (l : List Char) : l.asString.toList = l := rfl

theorem asString_toList (s : String) : s.toList.asString = s := by
  cases s; rfl

theorem toList_append (s t : String) : (s ++ t).toList = s.toList ++ t.toList := rfl

theorem length_asString (l : List Char) : l.asString.length = l.length := rfl

theorem empty_append_str (s : String) : "" ++ s = s := by
  cases s; rfl

theorem mapGet_mapSet_self {α : Type} (m : List (Int × α)) (k : Int) (v : α) :
    mapGet (mapSet m k v) k = some v := by
  induction m with
  | nil => simp [mapSet, mapGet]
  | cons kv rest ih =>
    by_cases h : kv.1 = k
    · simp [mapSet, mapGet, h]
    · simpa [mapSet, mapGet, h] using ih

theorem mem_mapSet {α : Type} (m : List (Int × α)) (k : Int) (v : α) :
    ∀ kv ∈ mapSet m k v, kv = (k, v) ∨ kv ∈ m := by
  induction m with
  | nil => simp [mapSet]
  | cons hd rest ih =>
    intro kv hkv
    by_cases h : hd.1 = k
    · simp only [mapSet, h, if_true, List.mem_cons] at hkv
      rcases hkv with h1 | h1
      · exact Or.inl h1
      · exact Or.inr (List.mem_cons_of_mem _ h1)
    · simp only [mapSet, h, if_false, List.mem_cons] at hkv
      rcases hkv with h1 | h1
      · exact Or.inr (by simp [h1])
      · rcases ih kv h1 with h2 | h2
        · exact Or.inl h2
        · exact Or.inr (List.mem_cons_of_mem _ h2)

theorem mem_mapDelete {α : Type} (m : List (Int × α)) (k : Int) :
    ∀ kv ∈ (mapDelete m k).2, kv ∈ m := by
  induction m with
  | nil => simp [mapDelete]
  | cons hd rest ih =>
    intro kv hkv
    by_cases h : hd.1 = k
    · simp only [mapDelete, h, if_true] at hkv
      exact List.mem_cons_of_mem _ hkv
    · simp only [mapDelete, h, if_false, List.mem_cons] at hkv
      rcases hkv with h1 | h1
      · simp [h1]
      · exact List.mem_cons_of_mem _ (ih kv h1)

/-! ## Claim C1 -/

/-- C1: every payment stored by `createPayment` — in either backend —
carries the masked card number: the space-stripped input with all but the
last 4 characters replaced by the mask character; on the 16-digit input
"4111111111111111" the stored value is "************1111"; no position
outside the last four ever holds an original character. -/
theorem claim_C1 (s : MemStorage) (now : Nat) (p : InsertPayment) :
    ((s.createPayment now p).1).cardNumber = MemStorage.maskCardNumber p.cardNumber
    ∧ (DatabaseStorage.createPaymentData p).cardNumber
        = DatabaseStorage.maskCardNumber p.cardNumber
    ∧ (4 ≤ (stripSpaces p.cardNumber).length →
        MemStorage.maskCardNumber p.cardNumber
          = (List.replicate ((stripSpaces p.cardNumber).length - 4) '*').asString
            ++ ((stripSpaces p.cardNumber).toList.drop
                  ((stripSpaces p.cardNumber).length - 4)).asString)
    ∧ (MemStorage.maskCardNumber p.cardNumber).toList.take
          ((stripSpaces p.cardNumber).length - 4)
        = List.replicate ((stripSpaces p.cardNumber).length - 4) '*'
    ∧ MemStorage.maskCardNumber "4111111111111111" = "************1111" := by
  refine ⟨rfl, rfl, ?_, ?_, by decide⟩
  · intro h
    simp only [MemStorage.maskCardNumber]
    rw [if_neg (by omega)]
  · simp only [MemStorage.maskCardNumber]
    by_cases h4 : (stripSpaces p.cardNumber).length < 4
    · rw [if_pos h4]
      have h0 : (stripSpaces p.cardNumber).length - 4 = 0 := by omega
      simp [h0]
    · rw [if_neg h4]
      rw [toList_append, toList_asString, toList_asString]
      exact List.take_left' (by simp)

/-- Witness for C1 at the spaced 16-digit card number. -/
theorem claim_C1_witness :
    4 ≤ (stripSpaces "4111 1111 1111 1111").length
    ∧ MemStorage.maskCardNumber "4111 1111 1111 1111"
        = (List.replicate ((stripSpaces "4111 1111 1111 1111").length - 4) '*').asString
          ++ ((stripSpaces "4111 1111 1111 1111").toList.drop
                ((stripSpaces "4111 1111 1111 1111").length - 4)).asString :=
  ⟨by decide, (claim_C1 MemStorage.init 0 ipC1).2.2.1 (by decide)⟩

/-! ## Claim C9 -/

/-- C9: `maskCardNumber` on a space-stripped length below 4 returns a
string of that length made entirely of mask characters, and on length
exactly 4 returns the space-stripped input unmasked. -/
theorem claim_C9 (x : String) :
    ((stripSpaces x).length < 4 →
        MemStorage.maskCardNumber x = (List.replicate (stripSpaces x).length '*').asString)
    ∧ ((stripSpaces x).length = 4 → MemStorage.maskCardNumber x = stripSpaces x) := by
  constructor
  · intro h
    simp only [MemStorage.maskCardNumber]
    rw [if_pos h]
  · intro h
    simp only [MemStorage.maskCardNumber]
    rw [if_neg (by omega), h]
    simp only [Nat.sub_self, List.replicate_zero, List.drop_zero, asString_toList]
    exact empty_append_str _

/-- Witness for C9 at a 2-character and a 4-character input. -/
theorem claim_C9_witness :
    MemStorage.maskCardNumber "12" = (List.replicate (stripSpaces "12").length '*').asString
    ∧ MemStorage.maskCardNumber "1234" = stripSpaces "1234" :=
  ⟨(claim_C9 "12").1 (by decide), (claim_C9 "1234").2 (by decide)⟩

/-! ## Claim C2 -/

theorem pushError_eq (errors : List ValidationError) (v : FieldCheck) :
    pushError errors v = errors ++ (runCheck v).toList := by
  unfold pushError runCheck
  by_cases h1 : (v.required && !validateRequired v.value) = true
  · simp [h1]
  · by_cases h2 : (!(v.value == "") && !v.validator v.value) = true
    · simp [h1, h2]
    · simp [h1, h2]

theorem foldl_pushError (l : List FieldCheck) (acc : List ValidationError) :
    l.foldl pushError acc = acc ++ l.filterMap runCheck := by
  induction l generalizing acc with
  | nil => simp
  | cons v rest ih =>
    simp only [List.foldl_cons, List.filterMap_cons, pushError_eq, ih]
    cases runCheck v <;> simp

theorem runCheck_required (v : FieldCheck) (hreq : v.required = true)
    (h : jsTrim v.value = "") :
    runCheck v = some ⟨v.field, jsCapitalize v.field ++ " is required"⟩ := by
  have hv : validateRequired v.value = false := by
    simp [validateRequired, h]
  simp [runCheck, hreq, hv]

theorem runCheck_field (v : FieldCheck) (e : ValidationError)
    (h : runCheck v = some e) : e.field = v.field := by
  unfold runCheck at h
  by_cases h1 : (v.required && !validateRequired v.value) = true
  · rw [if_pos h1] at h
    cases h; rfl
  · rw [if_neg h1] at h
    by_cases h2 : (!(v.value == "") && !v.validator v.value) = true
    · rw [if_pos h2] at h
      cases h; rfl
    · rw [if_neg h2] at h
      cases h

/-- C2: `validatePaymentForm` returns the full list of failing fields in
the fixed source order of the `validations` array (whose field order is
cardNumber, cvc, expiryDate, amount, firstName, lastName, email, city,
state, postalCode), the required check precedes the format check so an
empty-after-trim field yields the generic required message, and an empty
email yields exactly an "Email is required" entry and no format-specific
email message. -/
theorem claim_C2 (cy cm : Nat) (fd : PaymentFormData) :
    validatePaymentForm cy cm fd = (validations cy cm fd).filterMap runCheck
    ∧ (validations cy cm fd).map FieldCheck.field
        = ["cardNumber", "cvc", "expiryDate", "amount", "firstName", "lastName",
           "email", "city", "state", "postalCode"]
    ∧ (∀ v ∈ validations cy cm fd, jsTrim v.value = "" →
        runCheck v = some ⟨v.field, jsCapitalize v.field ++ " is required"⟩)
    ∧ (jsTrim fd.email = "" →
        ValidationError.mk "email" "Email is required" ∈ validatePaymentForm cy cm fd
        ∧ ∀ msg, ValidationError.mk "email" msg ∈ validatePaymentForm cy cm fd →
            msg = "Email is required") := by
  have hform : validatePaymentForm cy cm fd = (validations cy cm fd).filterMap runCheck := by
    unfold validatePaymentForm
    simpa using foldl_pushError (validations cy cm fd) []
  have hreqd : ∀ v ∈ validations cy cm fd, jsTrim v.value = "" →
      runCheck v = some ⟨v.field, jsCapitalize v.field ++ " is required"⟩ := by
    intro v hv h
    simp only [validations, List.mem_cons, List.not_mem_nil, or_false] at hv
    rcases hv with rfl | rfl | rfl | rfl | rfl | rfl | rfl | rfl | rfl | rfl <;>
      exact runCheck_required _ rfl h
  refine ⟨hform, rfl, hreqd, ?_⟩
  intro h
  have hmemv : (⟨"email", fd.email, validateEmail,
      "Please enter a valid email address", true⟩ : FieldCheck) ∈ validations cy cm fd := by
    simp [validations]
  have hrc := hreqd _ hmemv h
  have hcap : jsCapitalize "email" ++ " is required" = "Email is required" := by decide
  constructor
  · rw [hform]
    exact List.mem_filterMap.mpr ⟨_, hmemv, by rw [hrc]; simp [hcap]⟩
  · intro msg hmem
    rw [hform] at hmem
    obtain ⟨v, hv, hvrc⟩ := List.mem_filterMap.mp hmem
    have hf : v.field = "email" := (runCheck_field v _ hvrc).symm
    simp only [validations, List.mem_cons, List.not_mem_nil, or_false] at hv
    rcases hv with rfl | rfl | rfl | rfl | rfl | rfl | rfl | rfl | rfl | rfl <;>
      simp only at hf <;> try exact absurd hf (by decide)
    rw [hrc] at hvrc
    have := Option.some.inj hvrc
    have hmsg := congrArg ValidationError.message this
    simp only at hmsg
    rw [← hmsg, hcap]

/-- Witness for C2: the empty-email submission produces the required-error
entry and no format-specific email message. -/
theorem claim_C2_witness :
    jsTrim fdC2.email = ""
    ∧ ValidationError.mk "email" "Email is required" ∈ validatePaymentForm 25 10 fdC2
    ∧ ¬ ValidationError.mk "email" "Please enter a valid email address"
        ∈ validatePaymentForm 25 10 fdC2 := by
  have h := (claim_C2 25 10 fdC2).2.2.2 (by decide)
  refine ⟨by decide, h.1, fun hmem => ?_⟩
  exact absurd (h.2 _ hmem) (by decide)

/-! ## Claim C3 -/

theorem create_then_update (s : MemStorage) (now1 now2 : Nat) (ip : InsertPayment)
    (st : String) :
    ((s.createPayment now1 ip).2).updatePayment now2 ((s.createPayment now1 ip).1).id
        ⟨some st⟩
      = (some { (s.createPayment now1 ip).1 with status := st, updatedAt := now2 },
         { s with
             payments := (mapSet (mapSet s.payments s.currentPaymentId
               (s.createPayment now1 ip).1) s.currentPaymentId
               { (s.createPayment now1 ip).1 with status := st, updatedAt := now2 }),
             currentPaymentId := s.currentPaymentId + 1 }) := by
  have hget : mapGet ((s.createPayment now1 ip).2).payments s.currentPaymentId
      = some (s.createPayment now1 ip).1 := mapGet_mapSet_self _ _ _
  have hid : ((s.createPayment now1 ip).1).id = s.currentPaymentId := rfl
  rw [MemStorage.updatePayment, hid, hget]
  rfl

/-- C3: for every valid submission, after the pipeline finishes the
persisted record's status is `failed` with a 422 response or `completed`
with a 200 response — never `pending` — for either value of the random
gateway outcome. -/
theorem claim_C3 (cy cm ts now1 now2 : Nat) (ds : List Char) (sf : Bool)
    (fd : PaymentFormData) (s : MemStorage)
    (hval : validatePaymentForm cy cm (sanitizePayment fd) = []) :
    (mapGet ((processPayment cy cm ts ds sf now1 now2 fd s).2).payments
        s.currentPaymentId).map Payment.status
      = some (if sf then "failed" else "completed")
    ∧ (mapGet ((processPayment cy cm ts ds sf now1 now2 fd s).2).payments
        s.currentPaymentId).map Payment.status ≠ some "pending"
    ∧ ((processPayment cy cm ts ds sf now1 now2 fd s).1).httpCode
      = (if sf then 422 else 200) := by
  have hstat : ∀ (ip : InsertPayment) (st : String),
      (mapGet (mapSet (mapSet s.payments s.currentPaymentId
          ((s.createPayment now1 ip).1)) s.currentPaymentId
          { (s.createPayment now1 ip).1 with
              status := st, updatedAt := now2 }) s.currentPaymentId).map Payment.status
        = some st := by
    intro ip st
    rw [mapGet_mapSet_self]
    rfl
  simp only [processPayment, hval, List.length_nil]
  rw [if_neg (by omega)]
  cases sf with
  | true =>
    rw [if_pos rfl, if_pos rfl, if_pos rfl]
    rw [create_then_update]
    exact ⟨hstat _ "failed", by rw [hstat _ "failed"]; simp, rfl⟩
  | false =>
    rw [if_neg (by simp), if_neg (by simp), if_neg (by simp)]
    rw [create_then_update]
    exact ⟨hstat _ "completed", by rw [hstat _ "completed"]; simp, rfl⟩

/-- Witness for C3: a concrete valid submission on the declined path ends
with the stored record `failed` and a 422, and on the approved path with
`completed` and a 200. -/
theorem claim_C3_witness :
    (mapGet ((processPayment 25 10 1700000000000 dsC3 true 5 7 fdC3
        MemStorage.init).2).payments 1).map Payment.status = some "failed"
    ∧ ((processPayment 25 10 1700000000000 dsC3 true 5 7 fdC3
        MemStorage.init).1).httpCode = 422
    ∧ (mapGet ((processPayment 25 10 1700000000000 dsC3 false 5 7 fdC3
        MemStorage.init).2).payments 1).map Payment.status = some "completed"
    ∧ ((processPayment 25 10 1700000000000 dsC3 false 5 7 fdC3
        MemStorage.init).1).httpCode = 200 := by
  have h1 := claim_C3 25 10 1700000000000 5 7 dsC3 true fdC3 MemStorage.init (by decide)
  have h2 := claim_C3 25 10 1700000000000 5 7 dsC3 false fdC3 MemStorage.init (by decide)
  exact ⟨h1.1, h1.2.2, h2.1, h2.2.2⟩

/-! ## Claim C4 -/

/-- C4 counterexample: the durable backend's `getPaymentsByEmail` misses a
stored payment whose email equals the query under case-insensitive
comparison (the in-memory backend finds it), so the claim that both
backends filter case-insensitively is false. -/
theorem claim_C4_counterexample :
    jsToLower paymentC4.email = jsToLower "a@b.c"
    ∧ paymentC4 ∈ memC4.payments.map Prod.snd
    ∧ DatabaseStorage.getPaymentsByEmail (memC4.payments.map Prod.snd) "a@b.c" = []
    ∧ MemStorage.getPaymentsByEmail memC4 "a@b.c" = [paymentC4] := by
  refine ⟨by decide, by decide, by decide, by decide⟩

/-- C4 amended: `getPaymentsByEmail` returns exactly the stored payments
whose email equals the query case-insensitively in the in-memory backend,
but exactly those whose email equals the query as an exact string in the
durable backend. -/
theorem claim_C4 (s : MemStorage) (table : List Payment) (email : String) (p : Payment) :
    (p ∈ MemStorage.getPaymentsByEmail s email ↔
        p ∈ s.payments.map Prod.snd ∧ jsToLower p.email = jsToLower email)
    ∧ (p ∈ DatabaseStorage.getPaymentsByEmail table email ↔
        p ∈ table ∧ p.email = email) := by
  constructor
  · simp [MemStorage.getPaymentsByEmail, List.mem_filter]
  · simp [DatabaseStorage.getPaymentsByEmail, List.mem_filter]

/-- Witness for C4 amended at a concrete store and query. -/
theorem claim_C4_witness :
    paymentC4 ∈ MemStorage.getPaymentsByEmail memC4 "a@b.c"
    ∧ ¬ paymentC4 ∈ DatabaseStorage.getPaymentsByEmail (memC4.payments.map Prod.snd) "a@b.c" := by
  constructor
  · exact (claim_C4 memC4 [] "a@b.c" paymentC4).1.mpr ⟨by decide, by decide⟩
  · intro hmem
    have h := ((claim_C4 memC4 (memC4.payments.map Prod.snd) "a@b.c" paymentC4).2.mp hmem).2
    exact absurd h (by decide)

/-! ## Claim C5 -/

/-- C5 counterexample: on the draw 0.5 — base-36 expansion "i" — the
generated suffix has a single character, not nine, so the transaction id
does not always carry a 9-character suffix. -/
theorem claim_C5_counterexample :
    mkTransactionId 1700000000000 ['i'] = "TXN-1700000000000-i"
    ∧ (randSuffix ['i']).length ≠ 9 := by
  refine ⟨by decide, by decide⟩

/-- C5 amended: every transaction id has the form
TXN-(millisecond timestamp)-(suffix) where the suffix consists of base-36
characters of the random draw and has at most 9 characters — exactly 9
whenever the draw's base-36 fractional expansion has at least 9 digits. -/
theorem claim_C5 (ts : Nat) (ds : List Char) :
    mkTransactionId ts ds = "TXN-" ++ Nat.repr ts ++ "-" ++ randSuffix ds
    ∧ (randSuffix ds).length = min 9 ds.length
    ∧ (9 ≤ ds.length → (randSuffix ds).length = 9)
    ∧ (∀ c ∈ (randSuffix ds).toList, c ∈ ds) := by
  have hlen : (randSuffix ds).length = min 9 ds.length := by
    cases ds with
    | nil => decide
    | cons c cs =>
      show (jsSubstr ("0." ++ (c :: cs).asString) 2 9).length = _
      rw [jsSubstr, length_asString, toList_append]
      simp [List.length_take]
  refine ⟨rfl, hlen, ?_, ?_⟩
  · intro h
    rw [hlen]
    omega
  · intro ch hch
    cases ds with
    | nil =>
      rw [show (randSuffix []).toList = [] from rfl] at hch
      exact absurd hch (List.not_mem_nil _)
    | cons c cs =>
      have : (randSuffix (c :: cs)).toList = (c :: cs).take 9 := by
        show ((("0." ++ (c :: cs).asString).toList.drop 2).take 9).asString.toList = _
        rw [toList_asString, toList_append]
        rfl
      rw [this] at hch
      exact List.take_subset _ _ hch

/-- Witness for C5 amended at an 11-digit expansion. -/
theorem claim_C5_witness :
    (randSuffix dsC5).length = 9 ∧ 'p' ∈ dsC5 :=
  ⟨(claim_C5 0 dsC5).2.2.1 (by decide),
   (claim_C5 0 dsC5).2.2.2 'p' (by decide)⟩

/-! ## Claim C6 -/

theorem mapGet_mem {α : Type} (m : List (Int × α)) (k : Int) (v : α)
    (h : mapGet m k = some v) : (k, v) ∈ m := by
  induction m with
  | nil => simp [mapGet] at h
  | cons hd rest ih =>
    by_cases hk : hd.1 = k
    · simp only [mapGet, hk, if_true] at h
      cases h
      rcases hd with ⟨k1, v1⟩
      simp only at hk
      simp [hk]
    · simp only [mapGet, hk, if_false] at h
      exact List.mem_cons_of_mem _ (ih h)

theorem stampsOK_create (s : MemStorage) (t now : Nat) (p : InsertPayment)
    (hs : stampsOK s t) (ht : t ≤ now) :
    stampsOK (s.createPayment now p).2 now := by
  intro kv hkv
  rcases mem_mapSet _ _ _ kv hkv with h | h
  · subst h
    exact ⟨le_refl _, le_refl _⟩
  · obtain ⟨h1, h2⟩ := hs kv h
    exact ⟨h1, le_trans h2 ht⟩

theorem stampsOK_update (s : MemStorage) (t now : Nat) (id : Int) (u : UpdatePayment)
    (hs : stampsOK s t) (ht : t ≤ now) :
    stampsOK (s.updatePayment now id u).2 now := by
  unfold MemStorage.updatePayment
  cases hget : mapGet s.payments id with
  | none =>
    intro kv hkv
    obtain ⟨h1, h2⟩ := hs kv hkv
    exact ⟨h1, le_trans h2 ht⟩
  | some q =>
    intro kv hkv
    rcases mem_mapSet _ _ _ kv hkv with h | h
    · subst h
      obtain ⟨h1, h2⟩ := hs (id, q) (mapGet_mem _ _ _ hget)
      exact ⟨le_trans h1 (le_trans h2 ht), le_refl _⟩
    · obtain ⟨h1, h2⟩ := hs kv h
      exact ⟨h1, le_trans h2 ht⟩

theorem stampsOK_delete (s : MemStorage) (t : Nat) (id : Int)
    (hs : stampsOK s t) : stampsOK (s.deletePayment id).2 t := by
  intro kv hkv
  exact hs kv (mem_mapDelete _ _ kv hkv)

theorem stampsOK_runOps (ops : List MemOp) (s : MemStorage) (t : Nat)
    (hmono : opsMonotone t ops = true) (hs : stampsOK s t) :
    stampsOK (runOps s ops).1 (endTime t ops) := by
  induction ops generalizing s t with
  | nil => exact hs
  | cons op rest ih =>
    cases op with
    | create now p =>
      simp only [opsMonotone, Bool.and_eq_true, decide_eq_true_eq] at hmono
      exact ih _ _ hmono.2 (stampsOK_create s t now p hs hmono.1)
    | update now id u =>
      simp only [opsMonotone, Bool.and_eq_true, decide_eq_true_eq] at hmono
      exact ih _ _ hmono.2 (stampsOK_update s t now id u hs hmono.1)
    | delete id =>
      simp only [opsMonotone] at hmono
      exact ih _ _ hmono (stampsOK_delete s t id hs)

/-- C6: `createPayment` stamps both timestamps with the same instant;
`updatePayment` on an existing record refreshes `updatedAt` to the update
instant and never changes `createdAt`; along any monotone-clock trace of
operations from a fresh store, every stored record satisfies
`createdAt ≤ updatedAt`. -/
theorem claim_C6 :
    (∀ (s : MemStorage) (now : Nat) (p : InsertPayment),
        ((s.createPayment now p).1).createdAt = now
        ∧ ((s.createPayment now p).1).updatedAt = now)
    ∧ (∀ (s : MemStorage) (now : Nat) (id : Int) (u : UpdatePayment) (q q' : Payment),
        mapGet s.payments id = some q →
        (s.updatePayment now id u).1 = some q' →
        q'.createdAt = q.createdAt ∧ q'.updatedAt = now)
    ∧ (∀ ops : List MemOp, opsMonotone 0 ops = true →
        ∀ kv ∈ (runOps MemStorage.init ops).1.payments,
          kv.2.createdAt ≤ kv.2.updatedAt) := by
  refine ⟨fun s now p => ⟨rfl, rfl⟩, ?_, ?_⟩
  · intro s now id u q q' hget hupd
    unfold MemStorage.updatePayment at hupd
    rw [hget] at hupd
    simp only at hupd
    cases hupd
    exact ⟨rfl, rfl⟩
  · intro ops hmono kv hkv
    have hinit : stampsOK MemStorage.init 0 := by
      intro kv hkv
      simp [MemStorage.init] at hkv
    exact (stampsOK_runOps ops MemStorage.init 0 hmono hinit kv hkv).1

/-- Witness for C6 on a concrete create-then-update trace. -/
theorem claim_C6_witness :
    (((MemStorage.init.createPayment 5 ipC6).1).createdAt = 5
      ∧ ((MemStorage.init.createPayment 5 ipC6).1).updatedAt = 5)
    ∧ (qC6.createdAt = pC6.createdAt ∧ qC6.updatedAt = 7)
    ∧ (1, qC6).2.createdAt ≤ (1, qC6).2.updatedAt := by
  refine ⟨claim_C6.1 MemStorage.init 5 ipC6, ?_, ?_⟩
  · exact claim_C6.2.1 sC6 7 1 ⟨some "completed"⟩ pC6 qC6 (by decide) (by decide)
  · exact claim_C6.2.2 opsC6 (by decide) (1, qC6) (by decide)

/-! ## Claim C7 -/

/-- C7: `updatePayment` and `updateUser` on an id not present in the store
return `none` and leave the whole state unchanged — no record is created. -/
theorem claim_C7 (s : MemStorage) (now : Nat) (id : Int) (u : UpdatePayment)
    (uu : UpdateUser) :
    (mapGet s.payments id = none → s.updatePayment now id u = (none, s))
    ∧ (mapGet s.users id = none → s.updateUser id uu = (none, s)) := by
  constructor
  · intro h
    unfold MemStorage.updatePayment
    rw [h]
  · intro h
    unfold MemStorage.updateUser
    rw [h]

/-- Witness for C7 on the empty store. -/
theorem claim_C7_witness :
    MemStorage.init.updatePayment 3 1 {} = (none, MemStorage.init)
    ∧ MemStorage.init.updateUser 1 {} = (none, MemStorage.init) :=
  ⟨(claim_C7 MemStorage.init 3 1 {} {}).1 rfl,
   (claim_C7 MemStorage.init 3 1 {} {}).2 rfl⟩

/-! ## Claim C8 -/

/-- C8: the PATCH status handler answers 400 and leaves the store
untouched whenever the sanitized status is outside
{pending, completed, failed, refunded} — no storage call happens, so this
holds whether or not the id exists — and likewise whenever the id does
not parse to a number. -/
theorem claim_C8 (s : MemStorage) (now : Nat) (idParam statusBody : String) :
    (validStatuses.contains (sanitizeInput statusBody) = false →
        patchPaymentStatus s now idParam statusBody = (.badRequest, s))
    ∧ (jsParseInt idParam = none →
        patchPaymentStatus s now idParam statusBody = (.badRequest, s)) := by
  constructor
  · intro h
    unfold patchPaymentStatus
    cases hid : jsParseInt idParam with
    | none => rfl
    | some pid =>
      simp only [h]
      rfl
  · intro h
    unfold patchPaymentStatus
    rw [h]

/-- Witness for C8: status "archived" on an existing id answers 400 and
changes nothing; a non-numeric id answers 400 as well. -/
theorem claim_C8_witness :
    patchPaymentStatus sC8 9 "1" "archived" = (.badRequest, sC8)
    ∧ patchPaymentStatus sC8 9 "abc" "completed" = (.badRequest, sC8) :=
  ⟨(claim_C8 sC8 9 "1" "archived").1 (by decide),
   (claim_C8 sC8 9 "abc" "completed").2 (by decide)⟩

/-! ## Claim C10 -/

theorem runOps_counter_mono (ops : List MemOp) (s : MemStorage) :
    s.currentPaymentId ≤ (runOps s ops).1.currentPaymentId := by
  induction ops generalizing s with
  | nil => exact le_refl _
  | cons op rest ih =>
    cases op with
    | create now p =>
      show s.currentPaymentId ≤ ((runOps (s.createPayment now p).2 rest).1).currentPaymentId
      have harg : ((s.createPayment now p).2).currentPaymentId = s.currentPaymentId + 1 := rfl
      have := ih (s.createPayment now p).2
      omega
    | update now id u =>
      have harg : ((s.updatePayment now id u).2).currentPaymentId = s.currentPaymentId := by
        unfold MemStorage.updatePayment
        cases mapGet s.payments id <;> rfl
      calc s.currentPaymentId = ((s.updatePayment now id u).2).currentPaymentId := harg.symm
        _ ≤ _ := ih _
    | delete id =>
      exact ih (s.deletePayment id).2

theorem runOps_ids_lb (ops : List MemOp) (s : MemStorage) :
    ∀ i ∈ (runOps s ops).2, s.currentPaymentId ≤ i := by
  induction ops generalizing s with
  | nil => simp [runOps]
  | cons op rest ih =>
    cases op with
    | create now p =>
      intro i hi
      simp only [runOps, List.mem_cons] at hi
      rcases hi with h | h
      · subst h
        exact le_refl _
      · have harg : ((s.createPayment now p).2).currentPaymentId = s.currentPaymentId + 1 := rfl
        have := ih (s.createPayment now p).2 i h
        have hid : ((s.createPayment now p).1).id = s.currentPaymentId := rfl
        omega
    | update now id u =>
      intro i hi
      have harg : ((s.updatePayment now id u).2).currentPaymentId = s.currentPaymentId := by
        unfold MemStorage.updatePayment
        cases mapGet s.payments id <;> rfl
      have := ih (s.updatePayment now id u).2 i hi
      omega
    | delete id =>
      intro i hi
      exact ih (s.deletePayment id).2 i hi

/-- C10: along any sequence of operations on a fresh in-memory store, the
ids handed out by `createPayment` are strictly increasing in order of
assignment — deletion never causes an id to be reassigned. -/
theorem claim_C10 (ops : List MemOp) :
    ((runOps MemStorage.init ops).2).Pairwise (· < ·) := by
  suffices h : ∀ (l : List MemOp) (s : MemStorage), ((runOps s l).2).Pairwise (· < ·) from
    h ops MemStorage.init
  intro l
  induction l with
  | nil =>
    intro s
    simp [runOps]
  | cons op rest ih =>
    intro s
    cases op with
    | create now p =>
      simp only [runOps]
      refine List.Pairwise.cons ?_ (ih (s.createPayment now p).2)
      intro i hi
      have harg : ((s.createPayment now p).2).currentPaymentId = s.currentPaymentId + 1 := rfl
      have := runOps_ids_lb rest (s.createPayment now p).2 i hi
      show ((s.createPayment now p).1).id < i
      have hid : ((s.createPayment now p).1).id = s.currentPaymentId := rfl
      omega
    | update now id u =>
      exact ih (s.updatePayment now id u).2
    | delete id =>
      exact ih (s.deletePayment id).2

end FormValidationPro
